import Mathlib

/-!
Shallow embedding of `aioredis/commands/sorted_set.py` (the sorted-set
command mixin of an async Redis client) and verification of its
argument-validation, bound-encoding, command-building and reply-decoding
behaviour.

Modelling conventions:
* Python runtime values that flow through this module are modelled by
  `PyVal` (None, int, float, bytes, str).  Python floats are modelled as
  rationals plus the special values `inf`, `-inf` and `nan`; the byte
  strings occurring here are ASCII, so bytes and str both carry a `String`.
* Each mixin method is a function returning `Except PyError Cmd`:
  `.error e` means the Python method raises exception `e` synchronously,
  before any interaction with the connection; `.ok c` means the method
  calls `self._conn.execute` exactly once with command name `c.name` and
  argument list `c.args`, and post-processes the reply with the converter
  `c.conv` (`wait_convert` in the source).
* The builtins `int(...)`, `float(...)` and `str(...)` are modelled by
  `pyIntParse`, `pyFloatParse` and `pyNumStr`/`floatRepr` on the fragment
  of their behaviour exercised here (decimal text without underscores).
-/

namespace AioRedis

/-- Model of a Python float: a finite rational value, an infinity, or NaN. -/
inductive PyFloat where
  | finite (q : ℚ)
  | posInf
  | negInf
  | nan
deriving DecidableEq

/-- Model of the Python values that flow through the sorted-set mixin. -/
inductive PyVal where
  | none
  | int (n : ℤ)
  | float (f : PyFloat)
  | bytes (s : String)
  | str (s : String)
deriving DecidableEq

/-- Model of the exceptions raised by the sorted-set mixin. -/
inductive PyError where
  | typeError (msg : String)
  | valueError (msg : String)
  | assertionError (msg : String)
  | notImplementedError
deriving DecidableEq

/-- Reply converter attached to a pending command (`wait_convert` callback). -/
inductive Conv where
  | noConv
  | intOrFloatConv
  | pairsConv
deriving DecidableEq

/-- A dispatched command: the wire name, the positional argument list passed
to `self._conn.execute`, and the reply converter applied to the result. -/
structure Cmd where
  name : String
  args : List PyVal
  conv : Conv
deriving DecidableEq

instance instDecEqExcept {ε α : Type} [DecidableEq ε] [DecidableEq α] :
    DecidableEq (Except ε α) := fun x y =>
  match x, y with
  | .ok a, .ok b =>
      if h : a = b then .isTrue (by rw [h])
      else .isFalse (fun hc => h (Except.ok.inj hc))
  | .error a, .error b =>
      if h : a = b then .isTrue (by rw [h])
      else .isFalse (fun hc => h (Except.error.inj hc))
  | .ok _, .error _ => .isFalse (fun hc => Except.noConfusion hc)
  | .error _, .ok _ => .isFalse (fun hc => Except.noConfusion hc)

namespace PyVal

/-- Model of `isinstance(v, (int, float))`. -/
def isNum : PyVal → Bool
  | .int _ => true
  | .float _ => true
  | _ => false

/-- Model of `isinstance(v, int)`. -/
def isInt : PyVal → Bool
  | .int _ => true
  | _ => false

/-- Model of `isinstance(v, bytes)`. -/
def isBytes : PyVal → Bool
  | .bytes _ => true
  | _ => false

/-- Model of `math.isinf(v)` on an int-or-float value. -/
def isInf : PyVal → Bool
  | .float .posInf => true
  | .float .negInf => true
  | _ => false

end PyVal

/-- Extended rational used to compare Python numeric values. -/
inductive XRat where
  | ninf
  | fin (q : ℚ)
  | pinf
deriving DecidableEq

/-- Strict greater-than on extended rationals (via `Rat.blt`, which is the
computable comparison underlying `<` on `ℚ`). -/
def XRat.gt : XRat → XRat → Bool
  | .pinf, .pinf => false
  | .pinf, _ => true
  | .fin _, .pinf => false
  | .fin a, .fin b => Rat.blt b a
  | .fin _, .ninf => true
  | .ninf, _ => false

/-- The extended-rational value of a numeric `PyVal` (`none` for NaN and
non-numeric values, whose comparisons are all false in Python). -/
def PyVal.asXRat : PyVal → Option XRat
  | .int n => some (.fin (mkRat n 1))
  | .float (.finite q) => some (.fin q)
  | .float .posInf => some .pinf
  | .float .negInf => some .ninf
  | _ => Option.none

/-- Model of the Python comparison `a > b` on int-or-float values
(false whenever either side is NaN, as in Python). -/
def pyGt (a b : PyVal) : Bool :=
  match a.asXRat, b.asXRat with
  | some x, some y => XRat.gt x y
  | _, _ => false

/-- Left-pad a digit string with zeros to length `k`. -/
def padZeros (s : String) (k : Nat) : String :=
  String.mk (List.replicate (k - s.length) '0') ++ s

/-- Model of Python `str` on a finite float, as the decimal text of the
rational value: `5 ↦ "5.0"`, `21/2 ↦ "10.5"`.  (Rationals whose decimal
expansion needs more than 17 fractional digits do not arise from the float
literals handled here; they fall back to a fraction rendering.) -/
def floatRepr (q : ℚ) : String :=
  let m := q.num.natAbs
  let sign := if q.num < 0 then "-" else ""
  match (List.range 18).find? (fun k => ((10 : Nat) ^ k * m) % q.den == 0) with
  | some 0 => sign ++ toString m ++ ".0"
  | some k =>
      let t := (10 : Nat) ^ k * m / q.den
      sign ++ toString (t / 10 ^ k) ++ "." ++ padZeros (toString (t % 10 ^ k)) k
  | Option.none => sign ++ toString m ++ "/" ++ toString q.den

/-- Model of Python `str(v)` on an int-or-float value. -/
def pyNumStr : PyVal → String
  | .int n => toString n
  | .float (.finite q) => floatRepr q
  | .float .posInf => "inf"
  | .float .negInf => "-inf"
  | .float .nan => "nan"
  | _ => ""

/-- Score-range bound encoding shared by `zcount`, `zrangebyscore`,
`zremrangebyscore` and `zrevrangebyscore`: the source's
`if not include and not math.isinf(b): b = ("(" + str(b)).encode('utf-8')`. -/
def encScore (v : PyVal) (incl : Bool) : PyVal :=
  if ¬ incl ∧ ¬ v.isInf then .bytes ("(" ++ pyNumStr v) else v

/-- Lexicographic bound encoding shared by `zlexcount`, `zrangebylex` and
`zremrangebylex`: the source's
`if not b == sentinel: b = (b'[' if include else b'(') + b`. -/
def encLex (sentinel : String) (v : PyVal) (incl : Bool) : PyVal :=
  match v with
  | .bytes s =>
      if s = sentinel then .bytes s
      else .bytes ((if incl then "[" else "(") ++ s)
  | w => w

/-- Strip leading and trailing whitespace, as Python's numeric constructors
do to their textual argument. -/
def trimChars (cs : List Char) : List Char :=
  ((cs.dropWhile Char.isWhitespace).reverse.dropWhile Char.isWhitespace).reverse

/-- Numeric value of a list of decimal digit characters. -/
def digitsToNat (cs : List Char) : Nat :=
  cs.foldl (fun a c => 10 * a + (c.toNat - '0'.toNat)) 0

/-- Split off a leading run of decimal digits. -/
def spanDigits (cs : List Char) : List Char × List Char :=
  (cs.takeWhile Char.isDigit, cs.dropWhile Char.isDigit)

/-- Consume an optional leading sign; returns whether it was `-`. -/
def parseSign : List Char → Bool × List Char
  | '-' :: rest => (true, rest)
  | '+' :: rest => (false, rest)
  | cs => (false, cs)

/-- Model of Python `int(text)`: optional sign followed by decimal digits,
surrounding whitespace ignored; anything else raises `ValueError`
(modelled as `none`). -/
def pyIntParse (s : String) : Option ℤ :=
  let cs := trimChars s.toList
  let (neg, cs1) := parseSign cs
  let (ds, rest) := spanDigits cs1
  if ds.isEmpty ∨ ¬ rest.isEmpty then Option.none
  else some (if neg then -(digitsToNat ds : ℤ) else (digitsToNat ds : ℤ))

/-- Parse the exponent part of a float literal (after the `e`). -/
def parseExp (cs : List Char) : Option ℤ :=
  let (neg, cs1) := parseSign cs
  let (ds, rest) := spanDigits cs1
  if ds.isEmpty ∨ ¬ rest.isEmpty then Option.none
  else some (if neg then -(digitsToNat ds : ℤ) else (digitsToNat ds : ℤ))

/-- The rational value `d * 10 ^ t` of a digit value `d` and a signed
decimal exponent `t`. -/
def scaleByPow10 (d : Nat) (t : ℤ) : ℚ :=
  if 0 ≤ t then mkRat (d * 10 ^ t.toNat : Nat) 1
  else mkRat d (10 ^ (-t).toNat)

/-- Parse an unsigned decimal float literal `digits [. digits] [e exp]`
into its rational value. -/
def parseFloatMag (cs : List Char) : Option ℚ :=
  let (ip, r1) := spanDigits cs
  let (fp, r2) :=
    match r1 with
    | '.' :: rest => spanDigits rest
    | _ => ([], r1)
  if ip.isEmpty ∧ fp.isEmpty then Option.none
  else
    let d := digitsToNat (ip ++ fp)
    match r2 with
    | [] => some (scaleByPow10 d (-(fp.length : ℤ)))
    | 'e' :: rest => (parseExp rest).map (fun e => scaleByPow10 d (e - fp.length))
    | 'E' :: rest => (parseExp rest).map (fun e => scaleByPow10 d (e - fp.length))
    | _ => Option.none

/-- Model of Python `float(text)`: optional sign, then `inf`/`infinity`,
`nan`, or a decimal literal; whitespace ignored, case-insensitive.
`none` models `ValueError`. -/
def pyFloatParse (s : String) : Option PyFloat :=
  let cs := (trimChars s.toList).map Char.toLower
  let (neg, cs1) := parseSign cs
  if cs1 = ['i', 'n', 'f'] ∨ cs1 = ['i', 'n', 'f', 'i', 'n', 'i', 't', 'y'] then
    some (if neg then .negInf else .posInf)
  else if cs1 = ['n', 'a', 'n'] then
    some .nan
  else
    (parseFloatMag cs1).map (fun q => .finite (if neg then Rat.neg q else q))

/-- Reply decoder `int_or_float`: assert the reply is textual, try `int`,
fall back to `float` (a reply that parses as neither propagates the
`ValueError` of `float`). -/
def int_or_float (value : PyVal) : Except PyError PyVal :=
  match value with
  | .str s =>
      match pyIntParse s with
      | some n => .ok (.int n)
      | Option.none =>
          match pyFloatParse s with
          | some f => .ok (.float f)
          | Option.none => .error (.valueError "could not convert string to float")
  | .bytes s =>
      match pyIntParse s with
      | some n => .ok (.int n)
      | Option.none =>
          match pyFloatParse s with
          | some f => .ok (.float f)
          | Option.none => .error (.valueError "could not convert string to float")
  | _ => .error (.assertionError "raw_value must be bytes")

/-- Reply decoder `pairs_int_or_float`: pair up consecutive elements with
`zip(it, it)` (a trailing odd element is dropped), decode each score with
`int_or_float`, and flatten back into `[member, score, ...]`. -/
def pairs_int_or_float : List PyVal → Except PyError (List PyVal)
  | m :: s :: rest => do
      let v ← int_or_float s
      let r ← pairs_int_or_float rest
      pure (m :: v :: r)
  | _ => pure []

/-! The mixin methods.  Each definition mirrors the corresponding Python
method line by line: the validation `if`/`raise` chain, the bound
encoding, and the final `self._conn.execute(...)` call. -/

/-- Method `zadd(key, score, member, *pairs)`. -/
def zadd (key score member : PyVal) (pairs : List PyVal) : Except PyError Cmd :=
  if key = PyVal.none then .error (.typeError "key argument must not be None")
  else if ¬ score.isNum then .error (.typeError "score argument must be int or float")
  else if pairs.length % 2 ≠ 0 then .error (.typeError "length of pairs must be even number")
  else if pairs.enum.any (fun p => p.1 % 2 == 0 && !p.2.isNum) then
    .error (.typeError "all scores must be int or float")
  else .ok ⟨"ZADD", key :: score :: member :: pairs, .noConv⟩

/-- Method `zcard(key)`. -/
def zcard (key : PyVal) : Except PyError Cmd :=
  if key = PyVal.none then .error (.typeError "key argument must not be None")
  else .ok ⟨"ZCARD", [key], .noConv⟩

/-- Method `zcount(key, min, max, include_min, include_max)`. -/
def zcount (key min max : PyVal) (include_min include_max : Bool) :
    Except PyError Cmd :=
  if key = PyVal.none then .error (.typeError "key argument must not be None")
  else if ¬ min.isNum then .error (.typeError "min argument must be int or float")
  else if ¬ max.isNum then .error (.typeError "max argument must be int or float")
  else if pyGt min max then .error (.valueError "min could not be grater then max")
  else .ok ⟨"ZCOUNT",
    [key, encScore min include_min, encScore max include_max], .noConv⟩

/-- Method `zincrby(key, increment, member)`. -/
def zincrby (key increment member : PyVal) : Except PyError Cmd :=
  if key = PyVal.none then .error (.typeError "key argument must not be None")
  else if ¬ increment.isNum then
    .error (.typeError "increment argument must be int or float")
  else .ok ⟨"ZINCRBY", [key, increment, member], .intOrFloatConv⟩

/-- Method `zinterstore(destkey, numkeys, key, *keys)`: unconditionally
`raise NotImplementedError`. -/
def zinterstore (destkey numkeys key : PyVal) (keys : List PyVal) :
    Except PyError Cmd :=
  .error .notImplementedError

/-- Method `zlexcount(key, min, max, include_min, include_max)`. -/
def zlexcount (key min max : PyVal) (include_min include_max : Bool) :
    Except PyError Cmd :=
  if key = PyVal.none then .error (.typeError "key argument must not be None")
  else if ¬ min.isBytes then .error (.typeError "min argument must be bytes")
  else if ¬ max.isBytes then .error (.typeError "max argument must be bytes")
  else .ok ⟨"ZLEXCOUNT",
    [key, encLex "-" min include_min, encLex "+" max include_max], .noConv⟩

/-- Method `zrange(key, start, stop, withscores)`. -/
def zrange (key start stop : PyVal) (withscores : Bool) : Except PyError Cmd :=
  if key = PyVal.none then .error (.typeError "key argument must not be None")
  else if ¬ start.isInt then .error (.typeError "start argument must be int")
  else if ¬ stop.isInt then .error (.typeError "stop argument must be int")
  else .ok ⟨"ZRANGE",
    [key, start, stop] ++ (if withscores then [PyVal.bytes "WITHSCORES"] else []),
    if withscores then .pairsConv else .noConv⟩

/-- Method
`zrangebylex(key, min, max, include_min, include_max, offset, count)`. -/
def zrangebylex (key min max : PyVal) (include_min include_max : Bool)
    (offset count : PyVal) : Except PyError Cmd :=
  if key = PyVal.none then .error (.typeError "key argument must not be None")
  else if ¬ min.isBytes then .error (.typeError "min argument must be bytes")
  else if ¬ max.isBytes then .error (.typeError "max argument must be bytes")
  else
    let min1 := encLex "-" min include_min
    let max1 := encLex "+" max include_max
    if (offset ≠ PyVal.none ∧ count = PyVal.none) ∨
        (count ≠ PyVal.none ∧ offset = PyVal.none) then
      .error (.typeError "offset and count must both be specified")
    else if offset ≠ PyVal.none ∧ ¬ offset.isInt then
      .error (.typeError "offset argument must be int")
    else if count ≠ PyVal.none ∧ ¬ count.isInt then
      .error (.typeError "count argument must be int")
    else .ok ⟨"ZRANGEBYLEX",
      [key, min1, max1] ++
        (if offset ≠ PyVal.none ∧ count ≠ PyVal.none then
          [PyVal.bytes "LIMIT", offset, count] else []),
      .noConv⟩

/-- Method `zrangebyscore(key, min, max, include_min, include_max,
withscores, offset, count)`. -/
def zrangebyscore (key min max : PyVal) (include_min include_max : Bool)
    (withscores : Bool) (offset count : PyVal) : Except PyError Cmd :=
  if key = PyVal.none then .error (.typeError "key argument must not be None")
  else if ¬ min.isNum then .error (.typeError "min argument must be int or float")
  else if ¬ max.isNum then .error (.typeError "max argument must be int or float")
  else if (offset ≠ PyVal.none ∧ count = PyVal.none) ∨
      (count ≠ PyVal.none ∧ offset = PyVal.none) then
    .error (.typeError "offset and count must both be specified")
  else if offset ≠ PyVal.none ∧ ¬ offset.isInt then
    .error (.typeError "offset argument must be int")
  else if count ≠ PyVal.none ∧ ¬ count.isInt then
    .error (.typeError "count argument must be int")
  else .ok ⟨"ZRANGEBYSCORE",
    [key, encScore min include_min, encScore max include_max] ++
      ((if withscores then [PyVal.bytes "WITHSCORES"] else []) ++
        (if offset ≠ PyVal.none ∧ count ≠ PyVal.none then
          [PyVal.bytes "LIMIT", offset, count] else [])),
    if withscores then .pairsConv else .noConv⟩

/-- Method `zremrangebylex(key, min, max, include_min, include_max)`. -/
def zremrangebylex (key min max : PyVal) (include_min include_max : Bool) :
    Except PyError Cmd :=
  if key = PyVal.none then .error (.typeError "key argument must not be None")
  else if ¬ min.isBytes then .error (.typeError "min argument must be bytes")
  else if ¬ max.isBytes then .error (.typeError "max argument must be bytes")
  else .ok ⟨"ZREMRANGEBYLEX",
    [key, encLex "-" min include_min, encLex "+" max include_max], .noConv⟩

/-- Method `zremrangebyscore(key, min, max, include_min, include_max)`. -/
def zremrangebyscore (key min max : PyVal) (include_min include_max : Bool) :
    Except PyError Cmd :=
  if key = PyVal.none then .error (.typeError "key argument must not be None")
  else if ¬ min.isNum then .error (.typeError "min argument must be int or float")
  else if ¬ max.isNum then .error (.typeError "max argument must be int or float")
  else .ok ⟨"ZREMRANGEBYSCORE",
    [key, encScore min include_min, encScore max include_max], .noConv⟩

/-- Method `zrevrangebyscore(key, max, min, include_min, include_max,
withscores, offset, count)`.  Note the parameter order: `max` comes before
`min` in the signature. -/
def zrevrangebyscore (key max min : PyVal) (include_min include_max : Bool)
    (withscores : Bool) (offset count : PyVal) : Except PyError Cmd :=
  if key = PyVal.none then .error (.typeError "key argument must not be None")
  else if ¬ min.isNum then .error (.typeError "min argument must be int or float")
  else if ¬ max.isNum then .error (.typeError "max argument must be int or float")
  else if (offset ≠ PyVal.none ∧ count = PyVal.none) ∨
      (count ≠ PyVal.none ∧ offset = PyVal.none) then
    .error (.typeError "offset and count must both be specified")
  else if offset ≠ PyVal.none ∧ ¬ offset.isInt then
    .error (.typeError "offset argument must be int")
  else if count ≠ PyVal.none ∧ ¬ count.isInt then
    .error (.typeError "count argument must be int")
  else .ok ⟨"ZREVRANGEBYSCORE",
    [key, encScore min include_min, encScore max include_max] ++
      ((if withscores then [PyVal.bytes "WITHSCORES"] else []) ++
        (if offset ≠ PyVal.none ∧ count ≠ PyVal.none then
          [PyVal.bytes "LIMIT", offset, count] else [])),
    if withscores then .pairsConv else .noConv⟩

/-- Method `zscore(key, member)`. -/
def zscore (key member : PyVal) : Except PyError Cmd :=
  if key = PyVal.none then .error (.typeError "key argument must not be None")
  else .ok ⟨"ZSCORE", [key, member], .intOrFloatConv⟩

/-- Method `zunionstore(destkey, numkeys, key, *keys)`: unconditionally
`raise NotImplementedError`. -/
def zunionstore (destkey numkeys key : PyVal) (keys : List PyVal) :
    Except PyError Cmd :=
  .error .notImplementedError

/-- Classifier used in statements: did the method raise a `TypeError`
(synchronously, hence without ever reaching `self._conn.execute`)? -/
def isTypeError : Except PyError Cmd → Bool
  | .error (.typeError _) => true
  | _ => false

/-- Flatten a list of (member, score) pairs into the alternating flat reply
shape `[m1, s1, m2, s2, ...]`; used to state the pairs-decoder claim. -/
def interleave : List (PyVal × PyVal) → List PyVal
  | [] => []
  | (m, s) :: rest => m :: s :: interleave rest

/-- Decode each (member, score) pair by applying the scalar decoder to the
score, keeping pair order; used to state the pairs-decoder claim. -/
def decodePairs : List (PyVal × PyVal) → Except PyError (List (PyVal × PyVal))
  | [] => pure []
  | (m, s) :: rest => do
      let v ← int_or_float s
      let r ← decodePairs rest
      pure ((m, v) :: r)

end AioRedis

namespace AioRedis

/-! Verification of the specification claims. -/

lemma encScore_excl {v : PyVal} (h : v.isInf = false) :
    encScore v false = .bytes ("(" ++ pyNumStr v) := by
  simp [encScore, h]

lemma encScore_incl (v : PyVal) : encScore v true = v := by
  simp [encScore]

lemma encScore_inf {v : PyVal} (incl : Bool) (h : v.isInf = true) :
    encScore v incl = v := by
  simp [encScore, h]

/-- C1: for every score-range operation (`zcount`, `zrangebyscore`,
`zremrangebyscore`, `zrevrangebyscore`) and every numeric bound, a finite
exclusive bound is encoded as `(` followed by the decimal text of the
bound, a finite inclusive bound is passed as the raw numeric value, and an
infinite bound is passed through unchanged whatever the flag; each of the
four operations sends exactly these encoded bounds, min then max, right
after the key. -/
theorem c1_score_bound_encoding :
    (∀ (v : PyVal) (incl : Bool),
        (v.isInf = false → encScore v false = .bytes ("(" ++ pyNumStr v)) ∧
        encScore v true = v ∧
        (v.isInf = true → encScore v incl = v)) ∧
    (∀ k mn mx im iM c, zcount k mn mx im iM = .ok c →
        c.args = [k, encScore mn im, encScore mx iM]) ∧
    (∀ k mn mx im iM ws off cnt c, zrangebyscore k mn mx im iM ws off cnt = .ok c →
        c.args.take 3 = [k, encScore mn im, encScore mx iM]) ∧
    (∀ k mn mx im iM c, zremrangebyscore k mn mx im iM = .ok c →
        c.args = [k, encScore mn im, encScore mx iM]) ∧
    (∀ k mx mn im iM ws off cnt c, zrevrangebyscore k mx mn im iM ws off cnt = .ok c →
        c.args.take 3 = [k, encScore mn im, encScore mx iM]) := by
  refine ⟨fun v incl => ⟨encScore_excl, encScore_incl v, encScore_inf incl⟩, ?_, ?_, ?_, ?_⟩
  · intro k mn mx im iM c h
    unfold zcount at h
    split_ifs at h <;> cases h <;> rfl
  · intro k mn mx im iM ws off cnt c h
    unfold zrangebyscore at h
    split_ifs at h <;> cases h <;> rfl
  · intro k mn mx im iM c h
    unfold zremrangebyscore at h
    split_ifs at h <;> cases h <;> rfl
  · intro k mx mn im iM ws off cnt c h
    unfold zrevrangebyscore at h
    split_ifs at h <;> cases h <;> rfl

theorem c1_score_bound_encoding_witness :
    encScore (.float (.finite (mkRat 21 2))) false = .bytes "(10.5" :=
  ((c1_score_bound_encoding.1 (.float (.finite (mkRat 21 2))) false).1 (by decide)).trans
    (by decide)

/-- C2: for every lexicographic-range operation (`zlexcount`, `zrangebylex`,
`zremrangebylex`) and every byte-string bound, the sentinels `b"-"` (min)
and `b"+"` (max) pass through unchanged, and any other bound is prefixed
with `b"["` when inclusive and `b"("` when exclusive; each of the three
operations sends exactly these encoded bounds right after the key. -/
theorem c2_lex_bound_encoding :
    (∀ (sent s : String) (incl : Bool),
        (s = sent → encLex sent (.bytes s) incl = .bytes s) ∧
        (s ≠ sent → encLex sent (.bytes s) incl =
          .bytes ((if incl then "[" else "(") ++ s))) ∧
    (∀ k mn mx im iM c, zlexcount k mn mx im iM = .ok c →
        c.args = [k, encLex "-" mn im, encLex "+" mx iM]) ∧
    (∀ k mn mx im iM off cnt c, zrangebylex k mn mx im iM off cnt = .ok c →
        c.args.take 3 = [k, encLex "-" mn im, encLex "+" mx iM]) ∧
    (∀ k mn mx im iM c, zremrangebylex k mn mx im iM = .ok c →
        c.args = [k, encLex "-" mn im, encLex "+" mx iM]) := by
  refine ⟨fun sent s incl => ⟨fun h => by simp [encLex, h], fun h => by simp [encLex, h]⟩,
    ?_, ?_, ?_⟩
  · intro k mn mx im iM c h
    unfold zlexcount at h
    split_ifs at h <;> cases h <;> rfl
  · intro k mn mx im iM off cnt c h
    unfold zrangebylex at h
    split_ifs at h <;> cases h <;> rfl
  · intro k mn mx im iM c h
    unfold zremrangebylex at h
    split_ifs at h <;> cases h <;> rfl

theorem c2_lex_bound_encoding_witness :
    encLex "-" (.bytes "abc") true = .bytes "[abc" :=
  ((c2_lex_bound_encoding.1 "-" "abc" true).2 (by decide)).trans (by decide)

/-- C3: the scalar reply decoder `int_or_float` (used by `zscore` and
`zincrby`) returns the integer parse of a textual reply when it is a valid
integer literal, and otherwise returns the float parse; in particular
`b"10"` decodes to the integer `10` and `b"10.5"` to the float `10.5`. -/
theorem c3_int_or_float_decoding :
    (∀ (s : String) (n : ℤ), pyIntParse s = some n →
        int_or_float (.bytes s) = .ok (.int n)) ∧
    (∀ (s : String) (f : PyFloat), pyIntParse s = Option.none →
        pyFloatParse s = some f → int_or_float (.bytes s) = .ok (.float f)) ∧
    int_or_float (.bytes "10") = .ok (.int 10) ∧
    int_or_float (.bytes "10.5") = .ok (.float (.finite (mkRat 21 2))) ∧
    zscore (.bytes "k") (.bytes "m") =
      .ok ⟨"ZSCORE", [.bytes "k", .bytes "m"], .intOrFloatConv⟩ := by
  refine ⟨?_, ?_, by decide, by decide, by decide⟩
  · intro s n h
    simp [int_or_float, h]
  · intro s f hi hf
    simp [int_or_float, hi, hf]

theorem c3_int_or_float_decoding_witness :
    int_or_float (.bytes "10") = .ok (.int 10) :=
  c3_int_or_float_decoding.1 "10" 10 (by decide)

/-- C6: `zcount` with a valid (non-null) key and numeric `min > max` raises
`ValueError` synchronously; the command is never dispatched. -/
theorem c6_zcount_invalid_range :
    ∀ (key mn mx : PyVal) (im iM : Bool), key ≠ PyVal.none →
      mn.isNum = true → mx.isNum = true → pyGt mn mx = true →
      zcount key mn mx im iM =
        .error (.valueError "min could not be grater then max") := by
  intro key mn mx im iM hk hmn hmx hgt
  unfold zcount
  rw [if_neg hk, if_neg (by simp [hmn]), if_neg (by simp [hmx]), if_pos hgt]

theorem c6_zcount_invalid_range_witness :
    zcount (.bytes "k") (.int 5) (.int 1) true true =
      .error (.valueError "min could not be grater then max") :=
  c6_zcount_invalid_range (.bytes "k") (.int 5) (.int 1) true true
    (by decide) (by decide) (by decide) (by decide)

/-- C7: `zunionstore` and `zinterstore` raise `NotImplementedError` for all
arguments whatsoever; the executor is never invoked and there is no
partial behaviour. -/
theorem c7_store_ops_not_implemented :
    ∀ (destkey numkeys key : PyVal) (keys : List PyVal),
      zunionstore destkey numkeys key keys = .error .notImplementedError ∧
      zinterstore destkey numkeys key keys = .error .notImplementedError :=
  fun _ _ _ _ => ⟨rfl, rfl⟩

end AioRedis

namespace AioRedis

/-- C4: the paired-reply decoder `pairs_int_or_float` (used by
`zrange`/`zrevrange`/`zrangebyscore`/`zrevrangebyscore` with
`withscores=True`) maps the flat reply `[m1, s1, m2, s2, ...]` to
`[m1, decode s1, m2, decode s2, ...]` with the int-then-float parse,
preserving pair order; in particular `[b"a", b"1", b"b", b"2"]` decodes to
`[b"a", 1, b"b", 2]`. -/
theorem c4_pairs_decoding :
    (∀ ps : List (PyVal × PyVal),
        pairs_int_or_float (interleave ps) = Except.map interleave (decodePairs ps)) ∧
    pairs_int_or_float [.bytes "a", .bytes "1", .bytes "b", .bytes "2"] =
      .ok [.bytes "a", .int 1, .bytes "b", .int 2] := by
  refine ⟨?_, by decide⟩
  intro ps
  induction ps with
  | nil => rfl
  | cons p rest ih =>
    obtain ⟨m, s⟩ := p
    simp only [interleave, decodePairs, pairs_int_or_float]
    cases hs : int_or_float s with
    | error e => simp [hs, Except.map, Bind.bind, Except.bind, Functor.map]
    | ok v =>
      cases hr : decodePairs rest with
      | error e =>
        have hrw := ih
        rw [hr] at hrw
        simp [hs, hrw, Except.map, Bind.bind, Except.bind, Functor.map]
      | ok r =>
        have hrw := ih
        rw [hr] at hrw
        simp [hs, hrw, Except.map, Bind.bind, Except.bind, Functor.map,
          Pure.pure, Except.pure, interleave]

/-- C5: for each operation taking the optional offset/count pair
(`zrangebylex`, `zrangebyscore`, `zrevrangebyscore`), supplying exactly one
of offset and count makes the call raise `TypeError` synchronously (so the
executor is never invoked), and supplying both makes them the trailing wire
arguments `b"LIMIT", offset, count`. -/
theorem c5_offset_count_pairing :
    (∀ k mn mx (im iM : Bool) off cnt,
        ((off ≠ PyVal.none ∧ cnt = PyVal.none) ∨ (cnt ≠ PyVal.none ∧ off = PyVal.none)) →
        isTypeError (zrangebylex k mn mx im iM off cnt) = true) ∧
    (∀ k mn mx (im iM ws : Bool) off cnt,
        ((off ≠ PyVal.none ∧ cnt = PyVal.none) ∨ (cnt ≠ PyVal.none ∧ off = PyVal.none)) →
        isTypeError (zrangebyscore k mn mx im iM ws off cnt) = true) ∧
    (∀ k mx mn (im iM ws : Bool) off cnt,
        ((off ≠ PyVal.none ∧ cnt = PyVal.none) ∨ (cnt ≠ PyVal.none ∧ off = PyVal.none)) →
        isTypeError (zrevrangebyscore k mx mn im iM ws off cnt) = true) ∧
    (∀ k mn mx (im iM : Bool) off cnt c,
        zrangebylex k mn mx im iM off cnt = .ok c → off ≠ PyVal.none →
        c.args = [k, encLex "-" mn im, encLex "+" mx iM, .bytes "LIMIT", off, cnt]) ∧
    (∀ k mn mx (im iM ws : Bool) off cnt c,
        zrangebyscore k mn mx im iM ws off cnt = .ok c → off ≠ PyVal.none →
        c.args = [k, encScore mn im, encScore mx iM] ++
          (if ws then [PyVal.bytes "WITHSCORES"] else []) ++ [.bytes "LIMIT", off, cnt]) ∧
    (∀ k mx mn (im iM ws : Bool) off cnt c,
        zrevrangebyscore k mx mn im iM ws off cnt = .ok c → off ≠ PyVal.none →
        c.args = [k, encScore mn im, encScore mx iM] ++
          (if ws then [PyVal.bytes "WITHSCORES"] else []) ++ [.bytes "LIMIT", off, cnt]) := by
  refine ⟨?_, ?_, ?_, ?_, ?_, ?_⟩
  · intro k mn mx im iM off cnt hone
    unfold zrangebylex
    split_ifs with h1 h2 h3 h4 h5 h6 <;> first | rfl | exact absurd hone h4
  · intro k mn mx im iM ws off cnt hone
    unfold zrangebyscore
    split_ifs with h1 h2 h3 h4 h5 h6 <;> first | rfl | exact absurd hone h4
  · intro k mx mn im iM ws off cnt hone
    unfold zrevrangebyscore
    split_ifs with h1 h2 h3 h4 h5 h6 <;> first | rfl | exact absurd hone h4
  · intro k mn mx im iM off cnt c h hoff
    unfold zrangebylex at h
    split_ifs at h with h1 h2 h3 h4 h5 h6 h7 <;> cases h <;>
      have hcnt : cnt ≠ PyVal.none := fun hc => h4 (Or.inl ⟨hoff, hc⟩) <;>
      simp_all
  · intro k mn mx im iM ws off cnt c h hoff
    unfold zrangebyscore at h
    split_ifs at h with h1 h2 h3 h4 h5 h6 h7 h8 <;> cases h <;>
      have hcnt : cnt ≠ PyVal.none := fun hc => h4 (Or.inl ⟨hoff, hc⟩) <;>
      simp_all
  · intro k mx mn im iM ws off cnt c h hoff
    unfold zrevrangebyscore at h
    split_ifs at h with h1 h2 h3 h4 h5 h6 h7 h8 <;> cases h <;>
      have hcnt : cnt ≠ PyVal.none := fun hc => h4 (Or.inl ⟨hoff, hc⟩) <;>
      simp_all

theorem c5_offset_count_pairing_witness :
    isTypeError (zrangebyscore (.bytes "k") (.int 0) (.int 9) true true false
      (.int 1) PyVal.none) = true :=
  c5_offset_count_pairing.2.1 (.bytes "k") (.int 0) (.int 9) true true false
    (.int 1) PyVal.none (Or.inl (by decide))

/-- C8: unlike `zcount`, the operations `zrangebyscore`, `zremrangebyscore`
and `zrevrangebyscore` perform no min/max ordering check: called with an
otherwise valid key and finite numeric `min > max` they raise nothing and
dispatch the command with the encoded (empty) range. -/
theorem c8_no_range_check_outside_zcount :
    (∀ k mn mx (im iM ws : Bool), k ≠ PyVal.none →
        mn.isNum = true → mx.isNum = true →
        mn.isInf = false → mx.isInf = false → pyGt mn mx = true →
        zrangebyscore k mn mx im iM ws PyVal.none PyVal.none =
          .ok ⟨"ZRANGEBYSCORE",
            [k, encScore mn im, encScore mx iM] ++
              (if ws then [PyVal.bytes "WITHSCORES"] else []),
            if ws then .pairsConv else .noConv⟩) ∧
    (∀ k mn mx (im iM : Bool), k ≠ PyVal.none →
        mn.isNum = true → mx.isNum = true →
        mn.isInf = false → mx.isInf = false → pyGt mn mx = true →
        zremrangebyscore k mn mx im iM =
          .ok ⟨"ZREMRANGEBYSCORE",
            [k, encScore mn im, encScore mx iM], .noConv⟩) ∧
    (∀ k mx mn (im iM ws : Bool), k ≠ PyVal.none →
        mn.isNum = true → mx.isNum = true →
        mn.isInf = false → mx.isInf = false → pyGt mn mx = true →
        zrevrangebyscore k mx mn im iM ws PyVal.none PyVal.none =
          .ok ⟨"ZREVRANGEBYSCORE",
            [k, encScore mn im, encScore mx iM] ++
              (if ws then [PyVal.bytes "WITHSCORES"] else []),
            if ws then .pairsConv else .noConv⟩) := by
  refine ⟨?_, ?_, ?_⟩
  · intro k mn mx im iM ws hk hmn hmx _ _ _
    unfold zrangebyscore
    rw [if_neg hk, if_neg (by simp [hmn]), if_neg (by simp [hmx]),
      if_neg (by simp), if_neg (by simp), if_neg (by simp)]
    simp
  · intro k mn mx im iM hk hmn hmx _ _ _
    unfold zremrangebyscore
    rw [if_neg hk, if_neg (by simp [hmn]), if_neg (by simp [hmx])]
  · intro k mx mn im iM ws hk hmn hmx _ _ _
    unfold zrevrangebyscore
    rw [if_neg hk, if_neg (by simp [hmn]), if_neg (by simp [hmx]),
      if_neg (by simp), if_neg (by simp), if_neg (by simp)]
    simp

theorem c8_no_range_check_outside_zcount_witness :
    zrangebyscore (.bytes "k") (.int 5) (.int 1) true true false
      PyVal.none PyVal.none =
      .ok ⟨"ZRANGEBYSCORE", [.bytes "k", .int 5, .int 1], .noConv⟩ :=
  (c8_no_range_check_outside_zcount.1 (.bytes "k") (.int 5) (.int 1) true true false
    (by decide) (by decide) (by decide) (by decide) (by decide) (by decide)).trans
    (by decide)

/-- C10: `zrevrangebyscore` takes `max` before `min` in its parameter list
but emits the wire arguments in the order key, encoded min, encoded max
(the same wire order as `zrangebyscore`), followed by the modifier flags;
the command sent is always `ZREVRANGEBYSCORE`. -/
theorem c10_zrevrangebyscore_wire_order :
    ∀ k mx mn (im iM ws : Bool) off cnt c,
      zrevrangebyscore k mx mn im iM ws off cnt = .ok c →
      c.name = "ZREVRANGEBYSCORE" ∧
      c.args = [k, encScore mn im, encScore mx iM] ++
        ((if ws then [PyVal.bytes "WITHSCORES"] else []) ++
          (if off ≠ PyVal.none ∧ cnt ≠ PyVal.none then
            [PyVal.bytes "LIMIT", off, cnt] else [])) := by
  intro k mx mn im iM ws off cnt c h
  unfold zrevrangebyscore at h
  split_ifs at h <;> cases h <;> refine ⟨rfl, ?_⟩ <;> simp_all

theorem c10_zrevrangebyscore_wire_order_witness :
    Cmd.name ⟨"ZREVRANGEBYSCORE", [PyVal.bytes "k", PyVal.int 1, PyVal.int 9],
      Conv.noConv⟩ = "ZREVRANGEBYSCORE" :=
  (c10_zrevrangebyscore_wire_order (.bytes "k") (.int 9) (.int 1) true true false
    PyVal.none PyVal.none
    ⟨"ZREVRANGEBYSCORE", [PyVal.bytes "k", PyVal.int 1, PyVal.int 9], Conv.noConv⟩
    (by decide)).1

end AioRedis

namespace AioRedis

lemma enum_any_scores_iff (l : List PyVal) :
    (l.enum.any fun p => p.1 % 2 == 0 && !p.2.isNum) = true ↔
      ∃ i, i < l.length ∧ i % 2 = 0 ∧ (l.getD i PyVal.none).isNum = false := by
  rw [List.any_eq_true]
  rw [show (∃ x, x ∈ l.enum ∧ (x.1 % 2 == 0 && !x.2.isNum) = true) ↔
      ∃ (i : ℕ) (_ : i < l.length), ((i % 2 == 0) && !(l[i].isNum)) = true from
    List.exists_mem_enum]
  constructor
  · rintro ⟨i, hi, hb⟩
    rw [Bool.and_eq_true] at hb
    refine ⟨i, hi, by simpa using hb.1, ?_⟩
    rw [List.getD_eq_getElem?_getD, List.getElem?_eq_getElem hi]
    simpa using hb.2
  · rintro ⟨i, hi, h0, hn⟩
    refine ⟨i, hi, ?_⟩
    rw [Bool.and_eq_true]
    rw [List.getD_eq_getElem?_getD, List.getElem?_eq_getElem hi] at hn
    exact ⟨by simpa using h0, by simpa using hn⟩

/-- C9: `zadd` raises `TypeError` synchronously (never reaching the
executor) exactly when the key is None, the score is not an int or float,
the variadic pairs tuple has odd length, or some pairs element at an even
index (a score position) is not an int or float; otherwise it dispatches
`ZADD` with the arguments key, score, member followed by the pairs in the
order given. -/
theorem c9_zadd_validation :
    ∀ (key score member : PyVal) (pairs : List PyVal),
      ((∃ msg, zadd key score member pairs = .error (.typeError msg)) ↔
        (key = PyVal.none ∨ score.isNum = false ∨ pairs.length % 2 ≠ 0 ∨
          ∃ i, i < pairs.length ∧ i % 2 = 0 ∧
            (pairs.getD i PyVal.none).isNum = false)) ∧
      ((key ≠ PyVal.none ∧ score.isNum = true ∧ pairs.length % 2 = 0 ∧
          ¬ ∃ i, i < pairs.length ∧ i % 2 = 0 ∧
            (pairs.getD i PyVal.none).isNum = false) →
        zadd key score member pairs =
          .ok ⟨"ZADD", key :: score :: member :: pairs, .noConv⟩) := by
  intro key score member pairs
  unfold zadd
  by_cases h1 : key = PyVal.none
  · rw [if_pos h1]
    exact ⟨⟨fun _ => Or.inl h1, fun _ => ⟨_, rfl⟩⟩, fun hgood => absurd h1 hgood.1⟩
  · rw [if_neg h1]
    by_cases h2 : score.isNum = true
    · rw [if_neg (not_not_intro h2)]
      by_cases h3 : pairs.length % 2 = 0
      · rw [if_neg (not_not_intro h3)]
        by_cases h4 : (pairs.enum.any fun p => p.1 % 2 == 0 && !p.2.isNum) = true
        · rw [if_pos h4]
          exact ⟨⟨fun _ => Or.inr (Or.inr (Or.inr ((enum_any_scores_iff pairs).1 h4))),
              fun _ => ⟨_, rfl⟩⟩,
            fun hgood => absurd ((enum_any_scores_iff pairs).1 h4) hgood.2.2.2⟩
        · rw [if_neg h4]
          refine ⟨⟨?_, ?_⟩, fun _ => rfl⟩
          · rintro ⟨msg, hmsg⟩
            cases hmsg
          · rintro (hc | hc | hc | hc)
            · exact absurd hc h1
            · exact absurd h2 (by simp [hc])
            · exact absurd h3 hc
            · exact absurd ((enum_any_scores_iff pairs).2 hc) h4
      · rw [if_pos h3]
        exact ⟨⟨fun _ => Or.inr (Or.inr (Or.inl h3)), fun _ => ⟨_, rfl⟩⟩,
          fun hgood => absurd hgood.2.2.1 h3⟩
    · rw [if_pos h2]
      exact ⟨⟨fun _ => Or.inr (Or.inl (by simpa using h2)), fun _ => ⟨_, rfl⟩⟩,
        fun hgood => absurd hgood.2.1 h2⟩

theorem c9_zadd_validation_witness :
    zadd (.bytes "k") (.int 1) (.bytes "m") [] =
      .ok ⟨"ZADD", [.bytes "k", .int 1, .bytes "m"], .noConv⟩ :=
  (c9_zadd_validation (.bytes "k") (.int 1) (.bytes "m") []).2
    ⟨by decide, by decide, by decide,
      fun hbad => absurd hbad.choose_spec.1 (Nat.not_lt_zero hbad.choose)⟩

end AioRedis
